import Mathlib

/-!
Verification of the core run-scheduling and artifact-retrieval workflow of
devicefarm-cli (src/devicefarm-cli.go), shallowly embedded in Lean.  Go
strings are modelled as lists of characters; each fallible Go function is
modelled as an Except-valued function; the remote service is modelled as an
explicit environment of response functions.
-/

set_option maxHeartbeats 1000000

/-- Go strings are modelled as lists of characters. -/
abbrev Str : Type := List Char

/-- Conversion from a Lean string literal to the list-of-characters model. -/
def chars (s : String) : Str := s.toList

/-! ## Leftmost, non-overlapping string replacement

Models the Go `strings.NewReplacer(old, new).Replace` call with a single
pattern pair: scan left to right; at each position, if the pattern matches,
emit the replacement and resume after the matched text, otherwise emit the
current character and advance by one.  The recursion is fuelled by the
length of the scanned text, which suffices because each step consumes at
least one character. -/

def replaceAllAux (pat repl : Str) : Nat → Str → Str
  | 0, l => l
  | _ + 1, [] => []
  | fuel + 1, c :: cs =>
    if pat.isPrefixOf (c :: cs) then
      repl ++ replaceAllAux pat repl fuel (List.drop (pat.length - 1) cs)
    else
      c :: replaceAllAux pat repl fuel cs

/-- Replace every leftmost, non-overlapping occurrence of `pat` in `l` by
`repl`, as Go's single-pair `strings.Replacer` does. -/
def replaceAll (pat repl l : Str) : Str := replaceAllAux pat repl l.length l

theorem replaceAllAux_fuel (pat repl : Str) :
    ∀ f1 : Nat, ∀ l : Str, ∀ f2 : Nat, l.length ≤ f1 → l.length ≤ f2 →
      replaceAllAux pat repl f1 l = replaceAllAux pat repl f2 l := by
  intro f1
  induction f1 with
  | zero =>
    intro l f2 h1 _
    have hl : l = [] := List.eq_nil_of_length_eq_zero (Nat.le_zero.mp h1)
    subst hl
    cases f2 <;> rfl
  | succ f ih =>
    intro l f2 h1 h2
    cases l with
    | nil => cases f2 <;> rfl
    | cons c cs =>
      cases f2 with
      | zero => simp at h2
      | succ g =>
        simp only [replaceAllAux]
        by_cases hp : pat.isPrefixOf (c :: cs) = true
        · rw [if_pos hp, if_pos hp]
          have hd : (List.drop (pat.length - 1) cs).length ≤ cs.length := by
            rw [List.length_drop]; omega
          have hcs : cs.length ≤ f := by simpa using h1
          have hcs2 : cs.length ≤ g := by simpa using h2
          rw [ih (List.drop (pat.length - 1) cs) g (Nat.le_trans hd hcs) (Nat.le_trans hd hcs2)]
        · rw [if_neg hp, if_neg hp]
          have hcs : cs.length ≤ f := by simpa using h1
          have hcs2 : cs.length ≤ g := by simpa using h2
          rw [ih cs g hcs hcs2]

theorem replaceAll_nil (pat repl : Str) : replaceAll pat repl [] = [] := rfl

theorem replaceAll_cons_pos (pat repl : Str) (c : Char) (cs : Str)
    (h : pat.isPrefixOf (c :: cs) = true) :
    replaceAll pat repl (c :: cs) =
      repl ++ replaceAll pat repl (List.drop (pat.length - 1) cs) := by
  show replaceAllAux pat repl (cs.length + 1) (c :: cs) = _
  simp only [replaceAllAux, if_pos h]
  congr 1
  apply replaceAllAux_fuel
  · rw [List.length_drop]; omega
  · exact Nat.le_refl _

theorem replaceAll_cons_neg (pat repl : Str) (c : Char) (cs : Str)
    (h : ¬ pat.isPrefixOf (c :: cs) = true) :
    replaceAll pat repl (c :: cs) = c :: replaceAll pat repl cs := by
  show replaceAllAux pat repl (cs.length + 1) (c :: cs) = _
  simp only [replaceAllAux, if_neg h]
  rfl

theorem isPrefixOf_append_self (u v : Str) : u.isPrefixOf (u ++ v) = true := by
  induction u with
  | nil => simp [List.isPrefixOf]
  | cons c cs ih => simp [List.isPrefixOf, ih]

theorem isPrefixOf_self (u : Str) : u.isPrefixOf u = true := by
  have h := isPrefixOf_append_self u []
  rw [List.append_nil] at h
  exact h

theorem drop_len_append (u v : Str) : List.drop u.length (u ++ v) = v := by
  induction u with
  | nil => rfl
  | cons c cs ih => simp only [List.length_cons, List.cons_append, List.drop_succ_cons]; exact ih

/-- If the pattern occurs nowhere in `l`, replacement leaves `l` unchanged. -/
theorem replaceAll_no_occurrence (pat repl : Str)
    (l : Str) (h : ∀ i : Nat, ¬ pat.isPrefixOf (List.drop i l) = true) :
    replaceAll pat repl l = l := by
  induction l with
  | nil => rfl
  | cons c cs ih =>
    have h0 := h 0
    simp only [List.drop] at h0
    rw [replaceAll_cons_neg pat repl c cs h0]
    congr 1
    apply ih
    intro i
    have hi := h (i + 1)
    simpa [List.drop_succ_cons] using hi

/-- If no occurrence of the pattern starts inside the prefix `u`, replacement
passes `u` through untouched. -/
theorem replaceAll_append_of_no_occurrence (pat repl : Str) :
    ∀ u v : Str, (∀ i : Nat, i < u.length → ¬ pat.isPrefixOf (List.drop i (u ++ v)) = true) →
      replaceAll pat repl (u ++ v) = u ++ replaceAll pat repl v := by
  intro u
  induction u with
  | nil => intro v _; rfl
  | cons c cs ih =>
    intro v h
    have h0 := h 0 (by simp)
    simp only [List.cons_append, List.drop] at h0
    rw [List.cons_append, replaceAll_cons_neg pat repl c (cs ++ v) h0]
    have hrec : ∀ i : Nat, i < cs.length → ¬ pat.isPrefixOf (List.drop i (cs ++ v)) = true := by
      intro i hi
      have := h (i + 1) (by simp only [List.length_cons]; exact Nat.succ_lt_succ hi)
      simpa [List.drop_succ_cons] using this
    rw [ih v hrec]
    simp

/-- Replacement fires on an occurrence of the pattern at the head. -/
theorem replaceAll_head_match (pat repl rest : Str) (hpat : pat ≠ []) :
    replaceAll pat repl (pat ++ rest) = repl ++ replaceAll pat repl rest := by
  cases pat with
  | nil => exact absurd rfl hpat
  | cons q qs =>
    have hpre : (q :: qs).isPrefixOf ((q :: qs) ++ rest) = true :=
      isPrefixOf_append_self (q :: qs) rest
    rw [List.cons_append] at hpre
    rw [List.cons_append, replaceAll_cons_pos (q :: qs) repl q (qs ++ rest) hpre]
    congr 1
    have : (q :: qs).length - 1 = qs.length := by simp
    rw [this, drop_len_append]

/-! ## Data model

Records mirror the fields of the AWS SDK values that the CLI actually
reads; all resource identifiers ("ARNs") are opaque strings. -/

/-- A device as listed by the service; the CLI reads `Name`, `Os`, `Arn`. -/
structure Device where
  name : Str
  os : Str
  arn : Str
deriving DecidableEq, Repr

/-- One artifact of a run; the CLI reads `Arn`, `Name`, `Extension`, `Url`. -/
structure Artifact where
  arn : Str
  name : Str
  extension : Str
  url : Str
deriving DecidableEq, Repr

/-- One suite of a job; the report builder reads `Arn` and `Name`. -/
structure Suite where
  arn : Str
  name : Str
deriving DecidableEq, Repr

/-- One job of a run; the report builder reads `Arn`, `Name`, `Device.Model`
and `Device.Os`. -/
structure Job where
  arn : Str
  name : Str
  deviceModel : Str
  deviceOs : Str
deriving DecidableEq, Repr

/-- A device-pool inclusion rule `(Attribute, Operator, Value)`. -/
structure Rule where
  attr : Str
  operator : Str
  value : Str
deriving DecidableEq, Repr

/-- The `CreateDevicePoolInput` request assembled by `createPoolFromDevice`. -/
structure CreateDevicePoolInput where
  name : Str
  description : Str
  projectArn : Str
  rules : List Rule
deriving DecidableEq, Repr

/-- The `CreateUploadInput` request assembled by `uploadPut`. -/
structure CreateUploadInput where
  name : Str
  projectArn : Str
  uploadType : Str
  contentType : Str
deriving DecidableEq, Repr

/-- The test descriptor of a schedule request; the test-spec identifier is an
optional field, set only when non-empty. -/
structure ScheduleRunTest where
  testType : Str
  testPackageArn : Str
  testSpecArn : Option Str
deriving DecidableEq, Repr

/-- The `ScheduleRunInput` request submitted by `scheduleRun`. -/
structure ScheduleRunInput where
  appArn : Str
  devicePoolArn : Str
  name : Str
  projectArn : Str
  test : ScheduleRunTest
deriving DecidableEq, Repr

/-! ## Device lookup and ad-hoc pool creation (lookupDeviceArn,
createPoolFromDevice) -/

/-- The composite key `"<name> - <os>"` under which `lookupDeviceArn` indexes
the global device list. -/
def compositeKey (d : Device) : Str := d.name ++ chars " - " ++ d.os

/-- One iteration of the map-building loop of `lookupDeviceArn`: a later
device with the same composite key overwrites an earlier one. -/
def deviceInsert (m : Str → Str) (d : Device) : Str → Str :=
  fun k => if k = compositeKey d then d.arn else m k

/-- The `devices` map built by `lookupDeviceArn`; a missing key yields the Go
zero value, the empty string. -/
def deviceMap (ds : List Device) : Str → Str :=
  ds.foldl deviceInsert (fun _ => [])

/-- `lookupDeviceArn`: look the name up in the composite-key map and fail
when the result is the empty string. -/
def lookupDeviceArn (ds : List Device) (deviceName : Str) : Except Str Str :=
  let arn := deviceMap ds deviceName
  if arn ≠ [] then Except.ok arn
  else Except.error (chars "failed to find a device with name " ++ deviceName)

/-- The pool-creation request assembled by `createPoolFromDevice`: one rule
`(Arn, IN, ["<deviceArn>"])`. -/
def mkCreateDevicePoolInput (poolName deviceArn projectArn : Str) : CreateDevicePoolInput :=
  { name := poolName
    description := chars "autocreated pool " ++ poolName
    projectArn := projectArn
    rules := [{ attr := chars "Arn", operator := chars "IN",
                value := chars "[\"" ++ deviceArn ++ chars "\"]" }] }

/-! ## Remote environment

The remote service is abstracted as a record of response functions; the
claims quantify over it. -/

/-- Responses of the remote service used while building a schedule request:
`upload` maps a local file path and an upload type to the created Upload's
identifier (the modelled `uploadPut` result), `devices` is the global device
listing, and `createDevicePool` answers a pool-creation request with the new
pool's identifier. -/
structure Env where
  upload : Str → Str → Except Str Str
  devices : List Device
  createDevicePool : CreateDevicePoolInput → Except Str Str

/-- `createPoolFromDevice`: resolve the device by composite key, then create
a single-device private pool. -/
def createPoolFromDevice (env : Env) (poolName deviceName projectArn : Str) :
    Except Str Str :=
  match lookupDeviceArn env.devices deviceName with
  | Except.error e => Except.error e
  | Except.ok deviceArn =>
      env.createDevicePool (mkCreateDevicePoolInput poolName deviceArn projectArn)

/-! ## Test-type mapping (lookupTestTypes) and app-type guessing
(guessAppType) -/

/-- `lookupTestTypes`: the static chain of comparisons from the source,
mapping a test-type name to its (test-package kind, test-spec kind) pair. -/
def lookupTestTypes (testType : Str) : Except Str (Str × Str) :=
  if testType = chars "APPIUM_JAVA_JUNIT" then
    Except.ok (chars "APPIUM_JAVA_JUNIT_TEST_PACKAGE", chars "APPIUM_JAVA_JUNIT_TEST_SPEC")
  else if testType = chars "INSTRUMENTATION" then
    Except.ok (chars "INSTRUMENTATION_TEST_PACKAGE", chars "INSTRUMENTATION_TEST_SPEC")
  else if testType = chars "UIAUTOMATION" then
    Except.ok (chars "UIAUTOMATION_TEST_PACKAGE", [])
  else if testType = chars "APPIUM_JAVA_TESTNG" then
    Except.ok (chars "APPIUM_JAVA_TESTNG_TEST_PACKAGE", chars "APPIUM_JAVA_TESTNG_TEST_SPEC")
  else if testType = chars "CALABASH" then
    Except.ok (chars "CALABASH_TEST_PACKAGE", [])
  else if testType = chars "UIAUTOMATER" then
    Except.ok (chars "UIAUTOMATER_TEST_PACKAGE", [])
  else if testType = chars "XCTEST" then
    Except.ok (chars "XCTEST_TEST_PACKAGE", chars "XCTEST_UI_TEST_SPEC")
  else if testType = chars "APPIUM_NODE" then
    Except.ok (chars "APPIUM_NODE_TEST_PACKAGE", chars "APPIUM_NODE_TEST_SPEC")
  else if testType = chars "APPIUM_PYTHON" then
    Except.ok (chars "APPIUM_PYTHON_TEST_PACKAGE", chars "APPIUM_PYTHON_TEST_SPEC")
  else if testType = chars "APPIUM_RUBY" then
    Except.ok (chars "APPIUM_RUBY_TEST_PACKAGE", chars "APPIUM_RUBY_TEST_SPEC")
  else if testType = chars "APPIUM_WEB_JAVA_JUNIT" then
    Except.ok (chars "APPIUM_WEB_JAVA_JUNIT_TEST_PACKAGE", chars "APPIUM_WEB_JAVA_JUNIT_TEST_SPEC")
  else if testType = chars "APPIUM_WEB_JAVA_TESTNG" then
    Except.ok (chars "APPIUM_WEB_JAVA_TESTNG_TEST_PACKAGE", chars "APPIUM_WEB_JAVA_TESTNG_TEST_SPEC")
  else if testType = chars "APPIUM_WEB_PYTHON" then
    Except.ok (chars "APPIUM_WEB_PYTHON_TEST_PACKAGE", chars "APPIUM_WEB_PYTHON_TEST_SPEC")
  else if testType = chars "APPIUM_WEB_NODE" then
    Except.ok (chars "APPIUM_WEB_NODE_TEST_PACKAGE", chars "APPIUM_WEB_NODE_TEST_SPEC")
  else if testType = chars "APPIUM_WEB_RUBY" then
    Except.ok (chars "APPIUM_WEB_RUBY_TEST_PACKAGE", chars "APPIUM_WEB_RUBY_TEST_SPEC")
  else if testType = chars "BUILTIN_EXPLORER" ∨ testType = chars "BUILTIN_FUZZ" then
    Except.ok (chars "NONE", [])
  else
    Except.error (chars "Could not guess test type, you can use the BUILTIN_FUZZ or BUILTIN_EXPLORER")

/-- The static table of supported test types as (name, package kind, spec
kind) triples, in source order. -/
def testTypeTable : List (Str × Str × Str) :=
  [ (chars "APPIUM_JAVA_JUNIT", chars "APPIUM_JAVA_JUNIT_TEST_PACKAGE", chars "APPIUM_JAVA_JUNIT_TEST_SPEC")
  , (chars "INSTRUMENTATION", chars "INSTRUMENTATION_TEST_PACKAGE", chars "INSTRUMENTATION_TEST_SPEC")
  , (chars "UIAUTOMATION", chars "UIAUTOMATION_TEST_PACKAGE", [])
  , (chars "APPIUM_JAVA_TESTNG", chars "APPIUM_JAVA_TESTNG_TEST_PACKAGE", chars "APPIUM_JAVA_TESTNG_TEST_SPEC")
  , (chars "CALABASH", chars "CALABASH_TEST_PACKAGE", [])
  , (chars "UIAUTOMATER", chars "UIAUTOMATER_TEST_PACKAGE", [])
  , (chars "XCTEST", chars "XCTEST_TEST_PACKAGE", chars "XCTEST_UI_TEST_SPEC")
  , (chars "APPIUM_NODE", chars "APPIUM_NODE_TEST_PACKAGE", chars "APPIUM_NODE_TEST_SPEC")
  , (chars "APPIUM_PYTHON", chars "APPIUM_PYTHON_TEST_PACKAGE", chars "APPIUM_PYTHON_TEST_SPEC")
  , (chars "APPIUM_RUBY", chars "APPIUM_RUBY_TEST_PACKAGE", chars "APPIUM_RUBY_TEST_SPEC")
  , (chars "APPIUM_WEB_JAVA_JUNIT", chars "APPIUM_WEB_JAVA_JUNIT_TEST_PACKAGE", chars "APPIUM_WEB_JAVA_JUNIT_TEST_SPEC")
  , (chars "APPIUM_WEB_JAVA_TESTNG", chars "APPIUM_WEB_JAVA_TESTNG_TEST_PACKAGE", chars "APPIUM_WEB_JAVA_TESTNG_TEST_SPEC")
  , (chars "APPIUM_WEB_PYTHON", chars "APPIUM_WEB_PYTHON_TEST_PACKAGE", chars "APPIUM_WEB_PYTHON_TEST_SPEC")
  , (chars "APPIUM_WEB_NODE", chars "APPIUM_WEB_NODE_TEST_PACKAGE", chars "APPIUM_WEB_NODE_TEST_SPEC")
  , (chars "APPIUM_WEB_RUBY", chars "APPIUM_WEB_RUBY_TEST_PACKAGE", chars "APPIUM_WEB_RUBY_TEST_SPEC")
  , (chars "BUILTIN_EXPLORER", chars "NONE", [])
  , (chars "BUILTIN_FUZZ", chars "NONE", []) ]

/-- `filepath.Ext` helper: scanning the reversed path, collect characters up
to and including the first dot; a path separator ends the scan with no
extension. -/
def takeToDot : Str → Option Str
  | [] => none
  | c :: rest =>
    if c = '/' then none
    else if c = '.' then some [c]
    else match takeToDot rest with
         | none => none
         | some l => some (c :: l)

/-- Go's `filepath.Ext`: the suffix of the final path element starting at its
final dot, or empty when there is none. -/
def filepathExt (s : Str) : Str :=
  match takeToDot s.reverse with
  | some l => l.reverse
  | none => []

/-- Go's `strings.ToLower`, restricted to the basic-latin case mapping. -/
def toLowerStr (s : Str) : Str := s.map Char.toLower

/-- `guessAppType`: lower-case the file name, take its extension, and map
`.apk` to ANDROID_APP and `.ipa` to IOS_APP. -/
def guessAppType (fileName : Str) : Except Str Str :=
  let lowerCaseFileName := toLowerStr fileName
  let extension := filepathExt lowerCaseFileName
  if extension = chars ".apk" then Except.ok (chars "ANDROID_APP")
  else if extension = chars ".ipa" then Except.ok (chars "IOS_APP")
  else Except.error (chars "Can't guess App Type")

/-! ## Upload naming (uploadPut) -/

/-- Go's `path.Base`: the last element of a slash-separated path, after
stripping trailing slashes; `"."` for the empty path and `"/"` for a path of
slashes only. -/
def pathBase (p : Str) : Str :=
  if p = [] then chars "."
  else
    let q := (p.reverse.dropWhile (fun c => c = '/')).reverse
    let r := (q.reverse.takeWhile (fun c => c ≠ '/')).reverse
    if r = [] then chars "/" else r

/-- The display-name defaulting of `uploadPut`: an empty name is replaced by
the base name of the local file path. -/
def resolveUploadName (uploadFilePath uploadName : Str) : Str :=
  if uploadName = [] then pathBase uploadFilePath else uploadName

/-- The `CreateUploadInput` request assembled by `uploadPut`. -/
def mkCreateUploadInput (uploadFilePath uploadType projectArn uploadName : Str) :
    CreateUploadInput :=
  { name := resolveUploadName uploadFilePath uploadName
    projectArn := projectArn
    uploadType := uploadType
    contentType := chars "application/octet-stream" }

/-! ## Polling loops (scheduleRun run wait, uploadPut upload wait)

A status sequence maps the index of a poll to the status string the service
returns for it.  `pollChecks` mirrors the `for status != terminal` loops of
the source: starting from poll index `i`, it returns the total number of
status checks issued when the loop exits, and `none` when the loop is still
running after `fuel` checks.  The loops of the source have no bound, so a
sequence that never reaches the terminal value answers `none` for every
fuel. -/

def pollChecks (terminal : Str) (statusSeq : Nat → Str) : Nat → Nat → Option Nat
  | _, 0 => none
  | i, fuel + 1 =>
    if statusSeq i = terminal then some (i + 1)
    else pollChecks terminal statusSeq (i + 1) fuel

/-- The run-status wait loop of `scheduleRun`: terminal value COMPLETED. -/
def runWaitChecks (statusSeq : Nat → Str) (fuel : Nat) : Option Nat :=
  pollChecks (chars "COMPLETED") statusSeq 0 fuel

/-- The upload-status wait loop of `uploadPut`: terminal value SUCCEEDED. -/
def uploadWaitChecks (statusSeq : Nat → Str) (fuel : Nat) : Option Nat :=
  pollChecks (chars "SUCCEEDED") statusSeq 0 fuel

/-! ## Schedule-request assembly (scheduleRun) -/

/-- The configuration gathered from the schedule command's flags. -/
structure ScheduleConfig where
  projectArn : Str
  runName : Str
  deviceArn : Str
  devicePoolArn : Str
  appArn : Str
  appFile : Str
  appType : Str
  testPackageArn : Str
  testPackageFile : Str
  testType : Str
  testSpecArn : Str
  testSpecFile : Str
deriving DecidableEq, Repr

/-- App-type resolution in `scheduleRun`: guess from the file name only when
no explicit type was given. -/
def resolveAppType (c : ScheduleConfig) : Except Str Str :=
  if c.appType = [] then guessAppType c.appFile else Except.ok c.appType

/-- The app phase of `scheduleRun`: when an app file is given, resolve its
type and upload it, adopting the resulting Upload's identifier. -/
def appPhase (env : Env) (c : ScheduleConfig) : Except Str Str :=
  if c.appFile = [] then Except.ok c.appArn
  else
    match resolveAppType c with
    | Except.error e => Except.error e
    | Except.ok ty => env.upload c.appFile ty

/-- The pool phase of `scheduleRun`: an explicit pool identifier is used
verbatim; otherwise a pool is created from the device identifier, and with
neither the insufficient-input error is returned. -/
def poolPhase (env : Env) (c : ScheduleConfig) : Except Str Str :=
  if c.devicePoolArn = [] then
    if c.deviceArn = [] then Except.error (chars "we need a device/devicepool to run on")
    else createPoolFromDevice env c.deviceArn c.deviceArn c.projectArn
  else Except.ok c.devicePoolArn

/-- The test descriptor of the schedule request: the test-spec field is set
only when the test-spec identifier is non-empty. -/
def mkScheduleRunTest (testType testPackageArn testSpecArn : Str) : ScheduleRunTest :=
  { testType := testType
    testPackageArn := testPackageArn
    testSpecArn := if testSpecArn = [] then none else some testSpecArn }

/-- `scheduleRun` up to the submission of the schedule request: app phase,
pool phase, test-type mapping, test-package and test-spec uploads, then the
assembled `ScheduleRunInput`. -/
def scheduleRunReq (env : Env) (c : ScheduleConfig) : Except Str ScheduleRunInput :=
  match appPhase env c with
  | Except.error e => Except.error e
  | Except.ok appArn =>
    match poolPhase env c with
    | Except.error e => Except.error e
    | Except.ok devicePoolArn =>
      match lookupTestTypes c.testType with
      | Except.error e => Except.error e
      | Except.ok tt =>
        match (if c.testPackageFile = [] then Except.ok c.testPackageArn
               else env.upload c.testPackageFile tt.1) with
        | Except.error e => Except.error e
        | Except.ok testPackageArn =>
          match (if c.testSpecFile = [] then Except.ok c.testSpecArn
                 else env.upload c.testSpecFile tt.2) with
          | Except.error e => Except.error e
          | Except.ok testSpecArn =>
            Except.ok { appArn := appArn
                        devicePoolArn := devicePoolArn
                        name := c.runName
                        projectArn := c.projectArn
                        test := mkScheduleRunTest c.testType testPackageArn testSpecArn }

/-! ## Report builder (runReport, downloadArtifactsForSuite) -/

/-- The artifact categories the report builder walks, in source order. -/
def artifactTypes : List Str := [chars "LOG", chars "SCREENSHOT", chars "FILE"]

/-- The artifact-identifier namespace substitution: a suite's expected
artifact-identifier stem is its own identifier with `:suite:` replaced by
`:artifact:`. -/
def suiteArtifactPfx (suiteArn : Str) : Str :=
  replaceAll (chars ":suite:") (chars ":artifact:") suiteArn

/-- Decimal rendering of the per-scan index, as `fmt.Sprintf "%d"` emits. -/
def natChars (n : Nat) : Str := Nat.toDigits 10 n

/-- The destination file name `"<dir>/<count>_<name>.<extension>"`. -/
def mkArtifactFileName (dirPfx : Str) (count : Nat) (a : Artifact) : Str :=
  dirPfx ++ chars "/" ++ natChars count ++ chars "_" ++ a.name ++ chars "." ++ a.extension

/-- The inner scan of `downloadArtifactsForSuite` over one fetched artifact
list: keep the artifacts whose identifier starts with the suite's expected
stem, numbering the kept ones from `count` upward. -/
def suiteScan (dirPfx stem : Str) : Nat → List Artifact → List (Str × Artifact)
  | _, [] => []
  | count, a :: rest =>
    if stem.isPrefixOf a.arn then
      (mkArtifactFileName dirPfx count a, a) :: suiteScan dirPfx stem (count + 1) rest
    else
      suiteScan dirPfx stem count rest

/-- `downloadArtifactsForSuite`: for each category, scan each fetched
artifact list with a fresh counter, keeping the artifacts whose identifier
starts with the suite's substituted identifier; the result is the list of
(destination file name, artifact) downloads in order. -/
def downloadArtifactsForSuite (dirPfx : Str) (allArtifacts : Str → List (List Artifact))
    (s : Suite) : List (Str × Artifact) :=
  artifactTypes.flatMap (fun t =>
    (allArtifacts t).flatMap (fun l =>
      suiteScan dirPfx (suiteArtifactPfx s.arn) 0 l))

/-- The data of one run as the report builder observes it: the run's name,
its jobs, each job's suites (keyed by job identifier), and the run's
artifact listing per category. -/
structure RunData where
  runName : Str
  jobs : List Job
  suites : Str → List Suite
  listArtifacts : Str → List Artifact

/-- The category-keyed artifact map built at the start of `runReport`: one
fetched listing is appended per category. -/
def buildArtifactsMap (la : Str → List Artifact) : Str → List (List Artifact) :=
  artifactTypes.foldl (fun m t => fun k => if k = t then m k ++ [la t] else m k) (fun _ => [])

/-- The job directory component `"<job-name> - <device-model> - <device-os>"`. -/
def jobFriendlyName (j : Job) : Str :=
  j.name ++ chars " - " ++ j.deviceModel ++ chars " - " ++ j.deviceOs

/-- `runReport` reduced to its downloads: for every job and every suite of
the job, the downloads of `downloadArtifactsForSuite` under the directory
`report/<job friendly name>/<suite name>`. -/
def runReportDownloads (d : RunData) : List (Str × Artifact) :=
  d.jobs.flatMap (fun j =>
    (d.suites j.arn).flatMap (fun s =>
      downloadArtifactsForSuite
        (chars "report/" ++ jobFriendlyName j ++ chars "/" ++ s.name)
        (buildArtifactsMap d.listArtifacts) s))

/-! ## Decidable equality of modelled results -/

instance exceptDecEq {ε α : Type} [DecidableEq ε] [DecidableEq α] : DecidableEq (Except ε α) := fun a b =>
  match a, b with
  | Except.error e, Except.error f =>
    if h : e = f then isTrue (by rw [h]) else isFalse (by intro hh; cases hh; exact h rfl)
  | Except.error _, Except.ok _ => isFalse (by intro hh; cases hh)
  | Except.ok _, Except.error _ => isFalse (by intro hh; cases hh)
  | Except.ok x, Except.ok y =>
    if h : x = y then isTrue (by rw [h]) else isFalse (by intro hh; cases hh; exact h rfl)

/-- Claim C4: the test-type mapper is a pure static table: every supported
test-type name maps to its fixed (test-package kind, test-spec kind) pair;
BUILTIN_FUZZ and BUILTIN_EXPLORER map to the sentinel NONE package kind with
an empty spec kind; and every name outside the table yields an
unknown-test-type error whose message mentions both builtin fallbacks. -/
theorem c4_test_type_mapper :
    (∀ e ∈ testTypeTable, lookupTestTypes e.1 = Except.ok (e.2.1, e.2.2))
    ∧ lookupTestTypes (chars "BUILTIN_FUZZ") = Except.ok (chars "NONE", [])
    ∧ lookupTestTypes (chars "BUILTIN_EXPLORER") = Except.ok (chars "NONE", [])
    ∧ (∀ t : Str, t ∉ testTypeTable.map (fun e => e.1) →
        ∃ msg : Str, lookupTestTypes t = Except.error msg ∧
          chars "BUILTIN_FUZZ" <:+: msg ∧ chars "BUILTIN_EXPLORER" <:+: msg) := by
  refine ⟨by decide, by decide, by decide, ?_⟩
  intro t ht
  have hne : ∀ nm : Str, nm ∈ testTypeTable.map (fun e => e.1) → ¬(t = nm) := by
    intro nm hm he
    exact ht (he ▸ hm)
  simp only [lookupTestTypes]
  rw [if_neg (hne _ (by decide)), if_neg (hne _ (by decide)), if_neg (hne _ (by decide)),
      if_neg (hne _ (by decide)), if_neg (hne _ (by decide)), if_neg (hne _ (by decide)),
      if_neg (hne _ (by decide)), if_neg (hne _ (by decide)), if_neg (hne _ (by decide)),
      if_neg (hne _ (by decide)), if_neg (hne _ (by decide)), if_neg (hne _ (by decide)),
      if_neg (hne _ (by decide)), if_neg (hne _ (by decide)), if_neg (hne _ (by decide)),
      if_neg (not_or.mpr ⟨hne _ (by decide), hne _ (by decide)⟩)]
  exact ⟨_, rfl, by decide, by decide⟩

/-- Witness for C4 at concrete inputs: XCTEST resolves to its table entry,
and an unknown name yields the error mentioning both builtin fallbacks. -/
theorem c4_witness :
    lookupTestTypes (chars "XCTEST") = Except.ok (chars "XCTEST_TEST_PACKAGE", chars "XCTEST_UI_TEST_SPEC")
    ∧ ∃ msg : Str, lookupTestTypes (chars "NOT_A_TYPE") = Except.error msg ∧
        chars "BUILTIN_FUZZ" <:+: msg ∧ chars "BUILTIN_EXPLORER" <:+: msg :=
  ⟨c4_test_type_mapper.1 (chars "XCTEST", chars "XCTEST_TEST_PACKAGE", chars "XCTEST_UI_TEST_SPEC")
      (by decide),
   c4_test_type_mapper.2.2.2 (chars "NOT_A_TYPE") (by decide)⟩

/-- Claim C10: `uploadPut` with an empty display name names the created
Upload after the base name (final path component) of the local file path; a
non-empty display name is used verbatim. -/
theorem c10_upload_name_default : ∀ fp ty pa n : Str,
    (n = [] → (mkCreateUploadInput fp ty pa n).name = pathBase fp)
    ∧ (n ≠ [] → (mkCreateUploadInput fp ty pa n).name = n) := by
  intro fp ty pa n
  constructor
  · intro h
    simp [mkCreateUploadInput, resolveUploadName, h]
  · intro h
    simp [mkCreateUploadInput, resolveUploadName, h]

/-- Witness for C10: the empty name defaults to the path's final component,
and a supplied name is kept verbatim. -/
theorem c10_witness :
    (mkCreateUploadInput (chars "dir/sub/app.apk") (chars "ANDROID_APP") (chars "proj") []).name
      = chars "app.apk"
    ∧ (mkCreateUploadInput (chars "f.ipa") (chars "IOS_APP") (chars "proj") (chars "given")).name
      = chars "given" := by
  constructor
  · have h := (c10_upload_name_default (chars "dir/sub/app.apk") (chars "ANDROID_APP")
      (chars "proj") []).1 rfl
    rw [h]
    decide
  · exact (c10_upload_name_default (chars "f.ipa") (chars "IOS_APP") (chars "proj")
      (chars "given")).2 (by decide)

/-! ## Polling-loop lemmas (C2) -/

theorem pollChecks_reach (term : Str) (statusSeq : Nat → Str) :
    ∀ fuel i N : Nat, i < N → N ≤ i + fuel → statusSeq (N - 1) = term →
      (∀ j : Nat, i ≤ j → j < N - 1 → statusSeq j ≠ term) →
      pollChecks term statusSeq i fuel = some N := by
  intro fuel
  induction fuel with
  | zero =>
    intro i N h1 h2 _ _
    omega
  | succ f ih =>
    intro i N h1 h2 h3 h4
    simp only [pollChecks]
    by_cases hs : statusSeq i = term
    · rw [if_pos hs]
      have hi : i = N - 1 := by
        by_contra hne
        exact h4 i (Nat.le_refl i) (by omega) hs
      have : i + 1 = N := by omega
      rw [this]
    · rw [if_neg hs]
      have hiN : i ≠ N - 1 := fun he => hs (he ▸ h3)
      apply ih (i + 1) N (by omega) (by omega) h3
      intro j hj1 hj2
      exact h4 j (by omega) hj2

theorem pollChecks_never (term : Str) (statusSeq : Nat → Str)
    (h : ∀ j : Nat, statusSeq j ≠ term) :
    ∀ fuel i : Nat, pollChecks term statusSeq i fuel = none := by
  intro fuel
  induction fuel with
  | zero => intro i; rfl
  | succ f ih =>
    intro i
    simp only [pollChecks, if_neg (h i)]
    exact ih (i + 1)

/-- Claim C2: for a status sequence whose first success terminal value
(COMPLETED for the run wait, SUCCEEDED for the upload wait) appears at poll
N, the loop issues exactly N status checks and returns; for a sequence that
never reports the success terminal value — in particular one stuck on a
failure value — the loop never exits, whatever the number of checks already
issued. -/
theorem c2_polling_loops :
    (∀ (statusSeq : Nat → Str) (N fuel : Nat), 0 < N → N ≤ fuel →
       statusSeq (N - 1) = chars "COMPLETED" →
       (∀ i : Nat, i < N - 1 → statusSeq i ≠ chars "COMPLETED") →
       runWaitChecks statusSeq fuel = some N)
    ∧ (∀ (statusSeq : Nat → Str) (N fuel : Nat), 0 < N → N ≤ fuel →
       statusSeq (N - 1) = chars "SUCCEEDED" →
       (∀ i : Nat, i < N - 1 → statusSeq i ≠ chars "SUCCEEDED") →
       uploadWaitChecks statusSeq fuel = some N)
    ∧ (∀ (statusSeq : Nat → Str) (fuel : Nat),
       (∀ i : Nat, statusSeq i ≠ chars "COMPLETED") → runWaitChecks statusSeq fuel = none)
    ∧ (∀ (statusSeq : Nat → Str) (fuel : Nat),
       (∀ i : Nat, statusSeq i ≠ chars "SUCCEEDED") → uploadWaitChecks statusSeq fuel = none) := by
  refine ⟨?_, ?_, ?_, ?_⟩
  · intro statusSeq N fuel h0 hf h3 h4
    exact pollChecks_reach _ statusSeq fuel 0 N h0 (by omega) h3 (fun j _ hj => h4 j hj)
  · intro statusSeq N fuel h0 hf h3 h4
    exact pollChecks_reach _ statusSeq fuel 0 N h0 (by omega) h3 (fun j _ hj => h4 j hj)
  · intro statusSeq fuel h
    exact pollChecks_never _ statusSeq h fuel 0
  · intro statusSeq fuel h
    exact pollChecks_never _ statusSeq h fuel 0

/-- Witness for C2: a run-status sequence PENDING, PENDING, COMPLETED exits
after exactly 3 checks; an upload-status sequence INITIALIZED, SUCCEEDED
exits after exactly 2; a sequence constantly FAILED never exits. -/
theorem c2_witness :
    runWaitChecks (fun i => if i < 2 then chars "PENDING" else chars "COMPLETED") 5 = some 3
    ∧ uploadWaitChecks (fun i => if i < 1 then chars "INITIALIZED" else chars "SUCCEEDED") 4 = some 2
    ∧ runWaitChecks (fun _ => chars "FAILED") 7 = none
    ∧ uploadWaitChecks (fun _ => chars "FAILED") 7 = none := by
  refine ⟨?_, ?_, ?_, ?_⟩
  · apply c2_polling_loops.1 _ 3 5 (by decide) (by decide) (by decide)
    intro i hi
    have h2 : i < 2 := by omega
    simp only [if_pos h2]
    decide
  · apply c2_polling_loops.2.1 _ 2 4 (by decide) (by decide) (by decide)
    intro i hi
    have h1 : i < 1 := by omega
    simp only [if_pos h1]
    decide
  · exact c2_polling_loops.2.2.1 _ 7 (fun i => by decide)
  · exact c2_polling_loops.2.2.2 _ 7 (fun i => by decide)

/-! ## Case-folding helper lemmas (C8) -/

theorem toLower_eq_dot_iff (c : Char) : Char.toLower c = '.' ↔ c = '.' := by
  constructor
  · intro h
    simp only [Char.toLower] at h
    split at h
    · rename_i hcond
      obtain ⟨h1, h2⟩ := hcond
      set n := Char.toNat c with hn
      interval_cases n <;> exact absurd h (by decide)
    · exact h
  · intro h
    subst h
    decide

theorem toLower_eq_slash_iff (c : Char) : Char.toLower c = '/' ↔ c = '/' := by
  constructor
  · intro h
    simp only [Char.toLower] at h
    split at h
    · rename_i hcond
      obtain ⟨h1, h2⟩ := hcond
      set n := Char.toNat c with hn
      interval_cases n <;> exact absurd h (by decide)
    · exact h
  · intro h
    subst h
    decide

theorem takeToDot_map_toLower : ∀ r : Str,
    takeToDot (r.map Char.toLower) = (takeToDot r).map (List.map Char.toLower) := by
  intro r
  induction r with
  | nil => rfl
  | cons c rest ih =>
    simp only [List.map_cons, takeToDot]
    by_cases hs : c = '/'
    · rw [if_pos ((toLower_eq_slash_iff c).mpr hs), if_pos hs]
      rfl
    · rw [if_neg (fun hh => hs ((toLower_eq_slash_iff c).mp hh)), if_neg hs]
      by_cases hd : c = '.'
      · rw [if_pos ((toLower_eq_dot_iff c).mpr hd), if_pos hd]
        subst hd
        rfl
      · rw [if_neg (fun hh => hd ((toLower_eq_dot_iff c).mp hh)), if_neg hd, ih]
        cases takeToDot rest <;> rfl

/-- Lower-casing a path commutes with taking its extension. -/
theorem filepathExt_toLower (s : Str) :
    filepathExt (toLowerStr s) = toLowerStr (filepathExt s) := by
  simp only [filepathExt, toLowerStr]
  rw [← List.map_reverse, takeToDot_map_toLower]
  cases takeToDot s.reverse with
  | none => rfl
  | some l => simp [List.map_reverse]

/-- Claim C8: a file name whose extension is `.apk` in any letter case is
recognised as ANDROID_APP, one whose extension is `.ipa` in any letter case
as IOS_APP, and any other file name — in particular one with no extension —
is rejected with the cannot-guess error. -/
theorem c8_guess_app_type : ∀ s : Str,
    (toLowerStr (filepathExt s) = chars ".apk" → guessAppType s = Except.ok (chars "ANDROID_APP"))
    ∧ (toLowerStr (filepathExt s) = chars ".ipa" → guessAppType s = Except.ok (chars "IOS_APP"))
    ∧ (toLowerStr (filepathExt s) ≠ chars ".apk" → toLowerStr (filepathExt s) ≠ chars ".ipa" →
        guessAppType s = Except.error (chars "Can't guess App Type")) := by
  intro s
  have hext : filepathExt (toLowerStr s) = toLowerStr (filepathExt s) := filepathExt_toLower s
  refine ⟨?_, ?_, ?_⟩
  · intro h
    simp [guessAppType, hext, h]
  · intro h
    simp [guessAppType, hext, h]
    decide
  · intro h1 h2
    simp only [guessAppType, hext]
    rw [if_neg h1, if_neg h2]

/-- Witness for C8: `Foo.APK` is ANDROID_APP, `Bar.Ipa` is IOS_APP, and
`notes.txt` and the extensionless `Makefile` are rejected. -/
theorem c8_witness :
    guessAppType (chars "Foo.APK") = Except.ok (chars "ANDROID_APP")
    ∧ guessAppType (chars "Bar.Ipa") = Except.ok (chars "IOS_APP")
    ∧ guessAppType (chars "notes.txt") = Except.error (chars "Can't guess App Type")
    ∧ guessAppType (chars "Makefile") = Except.error (chars "Can't guess App Type") :=
  ⟨(c8_guess_app_type (chars "Foo.APK")).1 (by decide),
   (c8_guess_app_type (chars "Bar.Ipa")).2.1 (by decide),
   (c8_guess_app_type (chars "notes.txt")).2.2 (by decide) (by decide),
   (c8_guess_app_type (chars "Makefile")).2.2 (by decide) (by decide)⟩

/-! ## Device-map lemmas (C3) -/

/-- Whether a modelled call succeeded. -/
def exceptIsOk {ε α : Type} : Except ε α → Bool
  | Except.ok _ => true
  | Except.error _ => false

/-- The composite-key map answers with the arn of the last device carrying
the key — later devices overwrite earlier ones — and with the fallback for
an absent key. -/
theorem deviceMap_lookup : ∀ (ds : List Device) (m : Str → Str) (key : Str),
    List.foldl deviceInsert m ds key =
      (match (ds.filter (fun x => compositeKey x == key)).getLast? with
       | some d => d.arn
       | none => m key) := by
  intro ds
  induction ds with
  | nil => intro m key; rfl
  | cons d rest ih =>
    intro m key
    simp only [List.foldl_cons]
    rw [ih (deviceInsert m d) key]
    by_cases hd : compositeKey d = key
    · rw [List.filter_cons_of_pos (by simp [hd]), List.getLast?_cons]
      cases hLast : (rest.filter (fun x => compositeKey x == key)).getLast? with
      | some e => simp [hLast]
      | none => simp [hLast, deviceInsert, hd]
    · rw [List.filter_cons_of_neg (by simp [hd])]
      cases hLast : (rest.filter (fun x => compositeKey x == key)).getLast? with
      | some e => simp [hLast]
      | none => simp [hLast, deviceInsert, Ne.symm hd]

theorem lookupDeviceArn_of_last (ds : List Device) (key : Str) (d : Device)
    (hLast : (ds.filter (fun x => compositeKey x == key)).getLast? = some d)
    (ha : d.arn ≠ []) : lookupDeviceArn ds key = Except.ok d.arn := by
  simp only [lookupDeviceArn, deviceMap]
  rw [deviceMap_lookup ds (fun _ => []) key, hLast]
  simp [ha]

theorem lookupDeviceArn_isOk_iff (ds : List Device) (key : Str) :
    exceptIsOk (lookupDeviceArn ds key) = true ↔
      ∃ d : Device, (ds.filter (fun x => compositeKey x == key)).getLast? = some d ∧ d.arn ≠ [] := by
  simp only [lookupDeviceArn, deviceMap]
  rw [deviceMap_lookup ds (fun _ => []) key]
  cases hLast : (ds.filter (fun x => compositeKey x == key)).getLast? with
  | none => simp [exceptIsOk]
  | some d =>
    by_cases ha : d.arn = []
    · simp [exceptIsOk, ha]
    · simp [exceptIsOk, ha]

/-- Claim C3 (amended): resolving a pool from a composite key succeeds iff
some device in the list carries the key and the last such device has a
non-empty identifier; the lookup then answers the last matching device's
identifier, and the pool request carries the single rule
`(Arn, IN, ["<that identifier>"])`.  (The original claim's "exactly one
device" is refuted by `c3_counterexample`: with two devices sharing the key,
the lookup still succeeds, with the later device's identifier.) -/
theorem c3_pool_resolution :
    (∀ (ds : List Device) (key : Str),
       exceptIsOk (lookupDeviceArn ds key) = true ↔
         ∃ d : Device, (ds.filter (fun x => compositeKey x == key)).getLast? = some d ∧ d.arn ≠ [])
    ∧ (∀ (ds : List Device) (key : Str) (d : Device),
       (ds.filter (fun x => compositeKey x == key)).getLast? = some d → d.arn ≠ [] →
       lookupDeviceArn ds key = Except.ok d.arn)
    ∧ (∀ (env : Env) (pn key pa : Str) (d : Device),
       (env.devices.filter (fun x => compositeKey x == key)).getLast? = some d → d.arn ≠ [] →
       createPoolFromDevice env pn key pa
           = env.createDevicePool (mkCreateDevicePoolInput pn d.arn pa)
         ∧ (mkCreateDevicePoolInput pn d.arn pa).rules
           = [{ attr := chars "Arn", operator := chars "IN",
                value := chars "[\"" ++ d.arn ++ chars "\"]" }]) := by
  refine ⟨lookupDeviceArn_isOk_iff, lookupDeviceArn_of_last, ?_⟩
  intro env pn key pa d hLast ha
  constructor
  · simp only [createPoolFromDevice, lookupDeviceArn_of_last env.devices key d hLast ha]
  · rfl

/-- Counterexample to C3 as stated: with two devices sharing the composite
key `a - 1`, resolution still succeeds (the claim demands failure unless
exactly one device matches), answering the later device's identifier. -/
theorem c3_counterexample :
    exceptIsOk (lookupDeviceArn
        [⟨chars "a", chars "1", chars "arn:one"⟩, ⟨chars "a", chars "1", chars "arn:two"⟩]
        (chars "a - 1")) = true
    ∧ ([⟨chars "a", chars "1", chars "arn:one"⟩, ⟨chars "a", chars "1", chars "arn:two"⟩].filter
        (fun x => compositeKey x == chars "a - 1")).length = 2
    ∧ lookupDeviceArn
        [⟨chars "a", chars "1", chars "arn:one"⟩, ⟨chars "a", chars "1", chars "arn:two"⟩]
        (chars "a - 1") = Except.ok (chars "arn:two") := by
  refine ⟨by decide, by decide, by decide⟩

/-- Witness for C3 (amended) at a one-device list: the lookup answers that
device's identifier and the pool request carries the singleton-array rule. -/
theorem c3_witness :
    lookupDeviceArn [⟨chars "n", chars "1", chars "arnX"⟩] (chars "n - 1")
        = Except.ok (chars "arnX")
    ∧ (createPoolFromDevice
          { upload := fun _ _ => Except.ok (chars "u")
            devices := [⟨chars "n", chars "1", chars "arnX"⟩]
            createDevicePool := fun req => Except.ok req.name }
          (chars "pool") (chars "n - 1") (chars "proj")
        = Except.ok (chars "pool")
      ∧ (mkCreateDevicePoolInput (chars "pool") (chars "arnX") (chars "proj")).rules
        = [{ attr := chars "Arn", operator := chars "IN",
             value := chars "[\"" ++ chars "arnX" ++ chars "\"]" }]) := by
  constructor
  · exact c3_pool_resolution.2.1 [⟨chars "n", chars "1", chars "arnX"⟩] (chars "n - 1")
      ⟨chars "n", chars "1", chars "arnX"⟩ (by decide) (by decide)
  · have h := c3_pool_resolution.2.2
      { upload := fun _ _ => Except.ok (chars "u")
        devices := [⟨chars "n", chars "1", chars "arnX"⟩]
        createDevicePool := fun req => Except.ok req.name }
      (chars "pool") (chars "n - 1") (chars "proj")
      ⟨chars "n", chars "1", chars "arnX"⟩ (by decide) (by decide)
    exact ⟨h.1, h.2⟩

/-- Claim C6: the test-spec identifier is attached to the submitted schedule
request iff it is non-empty — taken verbatim from the configuration when no
test-spec file is given, and adopted from the test-spec upload otherwise;
an empty identifier leaves the field unset. -/
theorem c6_test_spec_attached : ∀ (env : Env) (c : ScheduleConfig) (req : ScheduleRunInput),
    scheduleRunReq env c = Except.ok req →
    (∀ s : Str, req.test.testSpecArn = some s → s ≠ [])
    ∧ (c.testSpecFile = [] →
        req.test.testSpecArn = (if c.testSpecArn = [] then none else some c.testSpecArn))
    ∧ (∀ pt st u : Str, c.testSpecFile ≠ [] →
        lookupTestTypes c.testType = Except.ok (pt, st) →
        env.upload c.testSpecFile st = Except.ok u →
        req.test.testSpecArn = (if u = [] then none else some u)) := by
  intro env c req h
  simp only [scheduleRunReq] at h
  split at h
  · exact Except.noConfusion h
  rename_i appArn happ
  split at h
  · exact Except.noConfusion h
  rename_i poolArn hpool
  split at h
  · exact Except.noConfusion h
  rename_i tt htt
  split at h
  · exact Except.noConfusion h
  rename_i tpArn htp
  split at h
  · exact Except.noConfusion h
  rename_i tsArn hts
  injection h with hreq
  subst hreq
  refine ⟨?_, ?_, ?_⟩
  · intro s hs
    simp only [mkScheduleRunTest] at hs
    split at hs
    · exact Option.noConfusion hs
    · rename_i hne
      injection hs with hs2
      subst hs2
      exact hne
  · intro hfile
    rw [if_pos hfile] at hts
    injection hts with hts2
    subst hts2
    rfl
  · intro pt st u hfile htt2 hup
    rw [htt] at htt2
    injection htt2 with htt3
    subst htt3
    rw [if_neg hfile] at hts
    rw [hts] at hup
    injection hup with hup2
    subst hup2
    rfl

/-- Witness for C6: a schedule with an uploaded test-spec file attaches the
adopted non-empty identifier, and one with neither a test-spec file nor a
test-spec identifier leaves the field unset. -/
theorem c6_witness :
    (ScheduleRunInput.mk [] (chars "pool") (chars "r") (chars "proj")
        { testType := chars "XCTEST", testPackageArn := chars "tp",
          testSpecArn := some (chars "specarn") }).test.testSpecArn
      = (if chars "specarn" = [] then none else some (chars "specarn"))
    ∧ (ScheduleRunInput.mk [] (chars "pool") (chars "r") (chars "proj")
        { testType := chars "XCTEST", testPackageArn := chars "tp",
          testSpecArn := none }).test.testSpecArn
      = (if ([] : Str) = [] then none else some ([] : Str)) := by
  constructor
  · exact (c6_test_spec_attached
      { upload := fun _ _ => Except.ok (chars "specarn"), devices := [],
        createDevicePool := fun _ => Except.ok (chars "p") }
      { projectArn := chars "proj", runName := chars "r", deviceArn := [],
        devicePoolArn := chars "pool", appArn := [], appFile := [], appType := [],
        testPackageArn := chars "tp", testPackageFile := [], testType := chars "XCTEST",
        testSpecArn := [], testSpecFile := chars "spec.yml" }
      _ (by decide)).2.2 (chars "XCTEST_TEST_PACKAGE") (chars "XCTEST_UI_TEST_SPEC")
      (chars "specarn") (by decide) (by decide) (by decide)
  · exact (c6_test_spec_attached
      { upload := fun _ _ => Except.ok (chars "specarn"), devices := [],
        createDevicePool := fun _ => Except.ok (chars "p") }
      { projectArn := chars "proj", runName := chars "r", deviceArn := [],
        devicePoolArn := chars "pool", appArn := [], appFile := [], appType := [],
        testPackageArn := chars "tp", testPackageFile := [], testType := chars "XCTEST",
        testSpecArn := [], testSpecFile := [] }
      _ (by decide)).2.1 (by decide)

/-- Claim C7 (amended): with neither a device-pool identifier nor a device
identifier supplied, `scheduleRun` never reaches the submission of a
schedule request: it fails, and whenever the app phase did not already fail
the error is the insufficient-input error; with a device identifier supplied
and no pool, the submitted request's pool is the one resolved from the
device.  (The original claim's unconditional insufficient-input error is
refuted by `c7_counterexample`: an unguessable app file fails first with a
different error.) -/
theorem c7_pool_requirement :
    (∀ (env : Env) (c : ScheduleConfig), c.devicePoolArn = [] → c.deviceArn = [] →
       exceptIsOk (scheduleRunReq env c) = false
       ∧ (∀ a : Str, appPhase env c = Except.ok a →
           scheduleRunReq env c = Except.error (chars "we need a device/devicepool to run on")))
    ∧ (∀ (env : Env) (c : ScheduleConfig) (req : ScheduleRunInput),
       c.devicePoolArn = [] → c.deviceArn ≠ [] → scheduleRunReq env c = Except.ok req →
       createPoolFromDevice env c.deviceArn c.deviceArn c.projectArn
         = Except.ok req.devicePoolArn) := by
  constructor
  · intro env c hpool hdev
    have hpp : poolPhase env c = Except.error (chars "we need a device/devicepool to run on") := by
      simp [poolPhase, hpool, hdev]
    constructor
    · cases happ : appPhase env c with
      | error e => simp [scheduleRunReq, happ, exceptIsOk]
      | ok a => simp [scheduleRunReq, happ, hpp, exceptIsOk]
    · intro a ha
      simp [scheduleRunReq, ha, hpp]
  · intro env c req hpool hdev h
    have hpp : poolPhase env c
        = createPoolFromDevice env c.deviceArn c.deviceArn c.projectArn := by
      simp [poolPhase, hpool, hdev]
    simp only [scheduleRunReq, hpp] at h
    split at h
    · exact Except.noConfusion h
    rename_i appArn happ
    split at h
    · exact Except.noConfusion h
    rename_i poolArn hcp
    split at h
    · exact Except.noConfusion h
    rename_i tt htt
    split at h
    · exact Except.noConfusion h
    rename_i tpArn htp
    split at h
    · exact Except.noConfusion h
    rename_i tsArn hts
    injection h with hreq
    subst hreq
    exact hcp

/-- Counterexample to C7 as stated: a configuration with neither pool nor
device but an unguessable app file fails with the app-type error, not the
insufficient-input error. -/
theorem c7_counterexample :
    scheduleRunReq
      { upload := fun _ _ => Except.ok (chars "u"), devices := [],
        createDevicePool := fun _ => Except.ok (chars "p") }
      { projectArn := chars "proj", runName := chars "r", deviceArn := [],
        devicePoolArn := [], appArn := [], appFile := chars "app.txt", appType := [],
        testPackageArn := [], testPackageFile := [], testType := chars "XCTEST",
        testSpecArn := [], testSpecFile := [] }
      = Except.error (chars "Can't guess App Type")
    ∧ chars "Can't guess App Type" ≠ chars "we need a device/devicepool to run on" := by
  refine ⟨by decide, by decide⟩

/-- Witness for C7 (amended): with no app file and neither pool nor device,
the insufficient-input error is returned; with a device identifier, the
request's pool is the one created from the device. -/
theorem c7_witness :
    exceptIsOk (scheduleRunReq
      { upload := fun _ _ => Except.ok (chars "u"), devices := [],
        createDevicePool := fun _ => Except.ok (chars "p") }
      { projectArn := chars "proj", runName := chars "r", deviceArn := [],
        devicePoolArn := [], appArn := chars "app", appFile := [], appType := [],
        testPackageArn := chars "tp", testPackageFile := [], testType := chars "XCTEST",
        testSpecArn := [], testSpecFile := [] }) = false
    ∧ scheduleRunReq
      { upload := fun _ _ => Except.ok (chars "u"), devices := [],
        createDevicePool := fun _ => Except.ok (chars "p") }
      { projectArn := chars "proj", runName := chars "r", deviceArn := [],
        devicePoolArn := [], appArn := chars "app", appFile := [], appType := [],
        testPackageArn := chars "tp", testPackageFile := [], testType := chars "XCTEST",
        testSpecArn := [], testSpecFile := [] }
      = Except.error (chars "we need a device/devicepool to run on")
    ∧ createPoolFromDevice
      { upload := fun _ _ => Except.ok (chars "u"),
        devices := [⟨chars "A", chars "1", chars "devarn"⟩],
        createDevicePool := fun _ => Except.ok (chars "poolarn") }
      (chars "A - 1") (chars "A - 1") (chars "proj")
      = Except.ok (chars "poolarn") := by
  refine ⟨?_, ?_, ?_⟩
  · exact (c7_pool_requirement.1
      { upload := fun _ _ => Except.ok (chars "u"), devices := [],
        createDevicePool := fun _ => Except.ok (chars "p") }
      { projectArn := chars "proj", runName := chars "r", deviceArn := [],
        devicePoolArn := [], appArn := chars "app", appFile := [], appType := [],
        testPackageArn := chars "tp", testPackageFile := [], testType := chars "XCTEST",
        testSpecArn := [], testSpecFile := [] } rfl rfl).1
  · exact (c7_pool_requirement.1
      { upload := fun _ _ => Except.ok (chars "u"), devices := [],
        createDevicePool := fun _ => Except.ok (chars "p") }
      { projectArn := chars "proj", runName := chars "r", deviceArn := [],
        devicePoolArn := [], appArn := chars "app", appFile := [], appType := [],
        testPackageArn := chars "tp", testPackageFile := [], testType := chars "XCTEST",
        testSpecArn := [], testSpecFile := [] } rfl rfl).2 (chars "app") (by decide)
  · exact c7_pool_requirement.2
      { upload := fun _ _ => Except.ok (chars "u"),
        devices := [⟨chars "A", chars "1", chars "devarn"⟩],
        createDevicePool := fun _ => Except.ok (chars "poolarn") }
      { projectArn := chars "proj", runName := chars "r", deviceArn := chars "A - 1",
        devicePoolArn := [], appArn := chars "app", appFile := [], appType := [],
        testPackageArn := chars "tp", testPackageFile := [], testType := chars "XCTEST",
        testSpecArn := [], testSpecFile := [] }
      (ScheduleRunInput.mk (chars "app") (chars "poolarn") (chars "r") (chars "proj")
        { testType := chars "XCTEST", testPackageArn := chars "tp", testSpecArn := none })
      rfl (by decide) (by decide)

/-! ## Report-builder lemmas (C1, C5) -/

theorem suiteScan_map_snd (dp stem : Str) : ∀ (l : List Artifact) (c : Nat),
    (suiteScan dp stem c l).map Prod.snd = l.filter (fun a => stem.isPrefixOf a.arn) := by
  intro l
  induction l with
  | nil => intro c; rfl
  | cons a rest ih =>
    intro c
    by_cases h : stem.isPrefixOf a.arn = true
    · simp [suiteScan, h, ih]
    · simp [suiteScan, h, ih]

/-- An artifact is retained for a suite iff it occurs in some fetched
category listing and its identifier starts with the suite's substituted
identifier. -/
theorem mem_downloadArtifactsForSuite (dp : Str) (all : Str → List (List Artifact))
    (s : Suite) (a : Artifact) :
    a ∈ (downloadArtifactsForSuite dp all s).map Prod.snd ↔
      ((∃ t ∈ artifactTypes, ∃ l ∈ all t, a ∈ l)
        ∧ (suiteArtifactPfx s.arn).isPrefixOf a.arn = true) := by
  simp only [downloadArtifactsForSuite, List.map_flatMap, suiteScan_map_snd]
  simp only [List.mem_flatMap, List.mem_filter]
  tauto

/-- When the `:suite:` marker occurs neither inside the leading prefix nor
inside the trailing part, the namespace substitution rewrites exactly the
designated occurrence. -/
theorem suiteArtifactPfx_subst (p x : Str)
    (hp : ∀ i : Nat, i < p.length →
      ¬ (chars ":suite:").isPrefixOf (List.drop i (p ++ chars ":suite:" ++ x)) = true)
    (hx : ∀ i : Nat, i < x.length →
      ¬ (chars ":suite:").isPrefixOf (List.drop i x) = true) :
    suiteArtifactPfx (p ++ chars ":suite:" ++ x) = p ++ chars ":artifact:" ++ x := by
  have hassoc : p ++ chars ":suite:" ++ x = p ++ (chars ":suite:" ++ x) :=
    List.append_assoc p (chars ":suite:") x
  have hx2 : ∀ i : Nat, ¬ (chars ":suite:").isPrefixOf (List.drop i x) = true := by
    intro i
    by_cases hi : i < x.length
    · exact hx i hi
    · rw [List.drop_eq_nil_of_le (by omega)]
      decide
  rw [suiteArtifactPfx, hassoc]
  rw [replaceAll_append_of_no_occurrence (chars ":suite:") (chars ":artifact:") p
    (chars ":suite:" ++ x) (by intro i hi; rw [← List.append_assoc]; exact hp i hi)]
  rw [replaceAll_head_match (chars ":suite:") (chars ":artifact:") x (by decide)]
  rw [replaceAll_no_occurrence (chars ":suite:") (chars ":artifact:") x hx2]
  rw [← List.append_assoc]

/-- Claim C1 (amended): the report builder attributes a fetched artifact to
a suite exactly when the artifact's identifier starts with the suite's
identifier after the `:suite:` → `:artifact:` substitution; in particular an
artifact `p:artifact:x` is attributed to the suite `p:suite:x` whenever the
marker occurs only at the designated position — but it is also attributed to
every other suite whose substituted identifier is a prefix of the artifact's
identifier, so a suite whose identifier shares only a shorter common prefix
can still receive the artifact (see `c1_counterexample`). -/
theorem c1_artifact_attribution :
    (∀ (dp : Str) (all : Str → List (List Artifact)) (s : Suite) (a : Artifact),
       a ∈ (downloadArtifactsForSuite dp all s).map Prod.snd ↔
         ((∃ t ∈ artifactTypes, ∃ l ∈ all t, a ∈ l)
           ∧ (suiteArtifactPfx s.arn).isPrefixOf a.arn = true))
    ∧ (∀ p x : Str,
       (∀ i : Nat, i < p.length →
         ¬ (chars ":suite:").isPrefixOf (List.drop i (p ++ chars ":suite:" ++ x)) = true) →
       (∀ i : Nat, i < x.length →
         ¬ (chars ":suite:").isPrefixOf (List.drop i x) = true) →
       suiteArtifactPfx (p ++ chars ":suite:" ++ x) = p ++ chars ":artifact:" ++ x)
    ∧ (∀ (dp : Str) (all : Str → List (List Artifact)) (s : Suite) (a : Artifact) (p x : Str),
       (∀ i : Nat, i < p.length →
         ¬ (chars ":suite:").isPrefixOf (List.drop i (p ++ chars ":suite:" ++ x)) = true) →
       (∀ i : Nat, i < x.length →
         ¬ (chars ":suite:").isPrefixOf (List.drop i x) = true) →
       s.arn = p ++ chars ":suite:" ++ x → a.arn = p ++ chars ":artifact:" ++ x →
       (∃ t ∈ artifactTypes, ∃ l ∈ all t, a ∈ l) →
       a ∈ (downloadArtifactsForSuite dp all s).map Prod.snd) := by
  refine ⟨mem_downloadArtifactsForSuite, suiteArtifactPfx_subst, ?_⟩
  intro dp all s a p x hp hx hs ha hf
  apply (mem_downloadArtifactsForSuite dp all s a).mpr
  refine ⟨hf, ?_⟩
  rw [hs, ha, suiteArtifactPfx_subst p x hp hx]
  exact isPrefixOf_self (p ++ chars ":artifact:" ++ x)

/-- Counterexample to C1 as stated: the artifact `p:artifact:12` of suite
`p:suite:12` is also attributed to the distinct suite `p:suite:1`, whose
identifier shares only a shorter common prefix, because the substituted
`p:artifact:1` is a string prefix of `p:artifact:12`. -/
theorem c1_counterexample :
    suiteArtifactPfx (chars "p:suite:12") = chars "p:artifact:12"
    ∧ suiteArtifactPfx (chars "p:suite:1") = chars "p:artifact:1"
    ∧ Artifact.mk (chars "p:artifact:12") (chars "n") (chars "e") (chars "u")
        ∈ (downloadArtifactsForSuite (chars "dir")
            (fun t => if t = chars "LOG"
              then [[Artifact.mk (chars "p:artifact:12") (chars "n") (chars "e") (chars "u")]]
              else [])
            (Suite.mk (chars "p:suite:1") (chars "s1"))).map Prod.snd
    ∧ chars "p:suite:1" ≠ chars "p:suite:12" := by
  refine ⟨by decide, by decide, by decide, by decide⟩

/-- Witness for C1 (amended) at a concrete suite and artifact: the artifact
`q:artifact:7` fetched in the LOG listing is attributed to the suite
`q:suite:7`. -/
theorem c1_witness :
    Artifact.mk (chars "q:artifact:7") (chars "n") (chars "e") (chars "u")
      ∈ (downloadArtifactsForSuite (chars "dir")
          (fun t => if t = chars "LOG"
            then [[Artifact.mk (chars "q:artifact:7") (chars "n") (chars "e") (chars "u")]]
            else [])
          (Suite.mk (chars "q:suite:7") (chars "S"))).map Prod.snd :=
  c1_artifact_attribution.2.2 (chars "dir")
    (fun t => if t = chars "LOG"
      then [[Artifact.mk (chars "q:artifact:7") (chars "n") (chars "e") (chars "u")]]
      else [])
    (Suite.mk (chars "q:suite:7") (chars "S"))
    (Artifact.mk (chars "q:artifact:7") (chars "n") (chars "e") (chars "u"))
    (chars "q") (chars "7")
    (by decide) (by decide) (by decide) (by decide) (by decide)

theorem mem_suiteScan (dp stem : Str) : ∀ (l : List Artifact) (c : Nat) (p : Str) (a : Artifact),
    (p, a) ∈ suiteScan dp stem c l ↔
      ∃ k : Nat, (l.filter (fun x => stem.isPrefixOf x.arn))[k]? = some a ∧
        p = mkArtifactFileName dp (c + k) a := by
  intro l
  induction l with
  | nil => intro c p a; simp [suiteScan]
  | cons a0 rest ih =>
    intro c p a
    by_cases h : stem.isPrefixOf a0.arn = true
    · have hf : List.filter (fun x => stem.isPrefixOf x.arn) (a0 :: rest)
          = a0 :: List.filter (fun x => stem.isPrefixOf x.arn) rest :=
        List.filter_cons_of_pos h
      simp only [suiteScan, if_pos h, List.mem_cons, hf]
      constructor
      · rintro (hpa | hmem)
        · have hp : p = mkArtifactFileName dp c a0 := congrArg Prod.fst hpa
          have ha : a = a0 := congrArg Prod.snd hpa
          subst ha
          exact ⟨0, by simp, by simpa using hp⟩
        · obtain ⟨k, hk, hp⟩ := (ih (c + 1) p a).mp hmem
          refine ⟨k + 1, by simpa using hk, ?_⟩
          rw [hp]
          congr 1
          omega
      · rintro ⟨k, hk, hp⟩
        cases k with
        | zero =>
          simp only [List.getElem?_cons_zero] at hk
          injection hk with hk2
          subst hk2
          left
          rw [hp]
          congr 1
        | succ k =>
          right
          apply (ih (c + 1) p a).mpr
          refine ⟨k, by simpa using hk, ?_⟩
          rw [hp]
          congr 1
          omega
    · have hf : List.filter (fun x => stem.isPrefixOf x.arn) (a0 :: rest)
          = List.filter (fun x => stem.isPrefixOf x.arn) rest :=
        List.filter_cons_of_neg h
      simp only [suiteScan, if_neg h, hf]
      exact ih c p a

/-- Each of the three category keys of the artifact map holds exactly the
one listing fetched for it. -/
theorem buildArtifactsMap_mem (la : Str → List Artifact) :
    ∀ t ∈ artifactTypes, buildArtifactsMap la t = [la t] := by
  intro t ht
  fin_cases ht <;> rfl

/-- Claim C5: every retained artifact is written to a destination of the
shape `report/<job-name> - <device-model> - <device-os>/<suite-name>/
<index>_<artifact-name>.<extension>`, where the index is the artifact's
position among the matches of one per-(suite, category) scan — so it restarts
for every suite and category. -/
theorem c5_report_path_shape : ∀ (d : RunData) (p : Str) (a : Artifact),
    (p, a) ∈ runReportDownloads d →
    ∃ (j : Job) (s : Suite) (t : Str) (k : Nat),
      j ∈ d.jobs ∧ s ∈ d.suites j.arn ∧ t ∈ artifactTypes ∧
      ((d.listArtifacts t).filter (fun x => (suiteArtifactPfx s.arn).isPrefixOf x.arn))[k]?
        = some a ∧
      p = mkArtifactFileName (chars "report/" ++ jobFriendlyName j ++ chars "/" ++ s.name) k a := by
  intro d p a h
  simp only [runReportDownloads, List.mem_flatMap] at h
  obtain ⟨j, hj, s, hs, hdl⟩ := h
  simp only [downloadArtifactsForSuite, List.mem_flatMap] at hdl
  obtain ⟨t, ht, l, hl, hscan⟩ := hdl
  rw [buildArtifactsMap_mem d.listArtifacts t ht] at hl
  have hl2 : l = d.listArtifacts t := by simpa using hl
  subst hl2
  obtain ⟨k, hk, hp⟩ := (mem_suiteScan _ _ _ 0 p a).mp hscan
  exact ⟨j, s, t, k, hj, hs, ht, hk, by simpa using hp⟩

/-- Witness for C5: in a run with one job `J` on device `M`/`O`, one suite
`S` and one LOG artifact, the single download lands at
`report/J - M - O/S/0_n.e`. -/
theorem c5_witness :
    ∃ (j : Job) (s : Suite) (t : Str) (k : Nat),
      j ∈ (RunData.mk (chars "run") [Job.mk (chars "jarn") (chars "J") (chars "M") (chars "O")]
        (fun _ => [Suite.mk (chars "q:suite:1") (chars "S")])
        (fun t => if t = chars "LOG"
          then [Artifact.mk (chars "q:artifact:1/0") (chars "n") (chars "e") (chars "u")]
          else [])).jobs
      ∧ s ∈ (RunData.mk (chars "run") [Job.mk (chars "jarn") (chars "J") (chars "M") (chars "O")]
        (fun _ => [Suite.mk (chars "q:suite:1") (chars "S")])
        (fun t => if t = chars "LOG"
          then [Artifact.mk (chars "q:artifact:1/0") (chars "n") (chars "e") (chars "u")]
          else [])).suites j.arn
      ∧ t ∈ artifactTypes
      ∧ (((RunData.mk (chars "run") [Job.mk (chars "jarn") (chars "J") (chars "M") (chars "O")]
        (fun _ => [Suite.mk (chars "q:suite:1") (chars "S")])
        (fun t => if t = chars "LOG"
          then [Artifact.mk (chars "q:artifact:1/0") (chars "n") (chars "e") (chars "u")]
          else [])).listArtifacts t).filter
            (fun x => (suiteArtifactPfx s.arn).isPrefixOf x.arn))[k]?
        = some (Artifact.mk (chars "q:artifact:1/0") (chars "n") (chars "e") (chars "u"))
      ∧ chars "report/J - M - O/S/0_n.e"
        = mkArtifactFileName (chars "report/" ++ jobFriendlyName j ++ chars "/" ++ s.name) k
            (Artifact.mk (chars "q:artifact:1/0") (chars "n") (chars "e") (chars "u")) :=
  c5_report_path_shape
    (RunData.mk (chars "run") [Job.mk (chars "jarn") (chars "J") (chars "M") (chars "O")]
      (fun _ => [Suite.mk (chars "q:suite:1") (chars "S")])
      (fun t => if t = chars "LOG"
        then [Artifact.mk (chars "q:artifact:1/0") (chars "n") (chars "e") (chars "u")]
        else []))
    (chars "report/J - M - O/S/0_n.e")
    (Artifact.mk (chars "q:artifact:1/0") (chars "n") (chars "e") (chars "u"))
    (by decide)

/-- Claim C9: the report builder is deterministic in its observations — two
runs of it against the same job list, the same suites per job and the same
per-category artifact listings produce the identical list of destination
file paths. -/
theorem c9_report_deterministic : ∀ d1 d2 : RunData, d1.jobs = d2.jobs →
    (∀ k : Str, d1.suites k = d2.suites k) →
    (∀ t : Str, d1.listArtifacts t = d2.listArtifacts t) →
    (runReportDownloads d1).map Prod.fst = (runReportDownloads d2).map Prod.fst := by
  intro d1 d2 hj hs ha
  obtain ⟨n1, j1, s1, a1⟩ := d1
  obtain ⟨n2, j2, s2, a2⟩ := d2
  dsimp only at hj hs ha
  have hs2 : s1 = s2 := funext hs
  have ha2 : a1 = a2 := funext ha
  subst hj hs2 ha2
  rfl

/-- Witness for C9: two observations of the same run differing only in the
displayed run name yield the identical path list. -/
theorem c9_witness :
    (runReportDownloads (RunData.mk (chars "one")
        [Job.mk (chars "jarn") (chars "J") (chars "M") (chars "O")]
        (fun _ => [Suite.mk (chars "q:suite:1") (chars "S")])
        (fun t => if t = chars "LOG"
          then [Artifact.mk (chars "q:artifact:1/0") (chars "n") (chars "e") (chars "u")]
          else []))).map Prod.fst
    = (runReportDownloads (RunData.mk (chars "two")
        [Job.mk (chars "jarn") (chars "J") (chars "M") (chars "O")]
        (fun _ => [Suite.mk (chars "q:suite:1") (chars "S")])
        (fun t => if t = chars "LOG"
          then [Artifact.mk (chars "q:artifact:1/0") (chars "n") (chars "e") (chars "u")]
          else []))).map Prod.fst :=
  c9_report_deterministic _ _ rfl (fun _ => rfl) (fun _ => rfl)
